import Mathlib

/-!
Shallow embedding of the finance store of this repository
(`store/financeStore.ts`, re-exported by `store/index.ts`, types in
`store/types.ts`).

The store wraps an SQLite database behind asynchronous actions.  We model
the durable store as an explicit `DB` value (one list per table, plus the
auto-increment counters) and the Zustand in-memory state as `StoreState`.
Each store action becomes a pure function taking and returning these.

Every database statement of the source can fail; the source catches each
failure at the enclosing `try/catch` and only logs it.  We model this with
an explicit failure schedule (`FailSched`): each database statement
consumes one flag from the schedule (an exhausted schedule means "no
failure"), and a `true` flag makes that statement raise, transferring
control to the enclosing `catch` exactly as in the source.  Because every
action catches its own errors, each action is a total function — the
embedding-level counterpart of "no operation rejects/throws to its caller".

Monetary amounts are modelled as integers (the app stores whole rupiah
amounts; JavaScript numbers represent them exactly).  The one non-integer
computation of the source, `Math.round((catTotal / totalExpense) * 100)`,
is computed exactly over the integers: `Math.round x = ⌊x + 1/2⌋`, and for
`b > 0` one has `⌊100 * a / b + 1/2⌋ = ⌊(200 * a + b) / (2 * b)⌋`, which is
Lean's Euclidean division `(200 * a + b) / (2 * b)` (Euclidean and floor
division agree for positive divisors).  The theorem `roundPercent_eq_round`
below proves this model equal to the exact rational-rounding formula.
`strftime('%Y-%m', date)` on the ISO-8601 date strings the app stores is
the first seven characters of the date.
-/

namespace FinanceStore

/-- The transaction type tag of `store/types.ts`: `'expense' | 'income'`. -/
inductive TransactionType where
  | expense
  | income
deriving DecidableEq

/-- A row of the `categories` table (persisted columns only). -/
structure CatRow where
  id : Int
  name : String
  icon : String
  color : String
  budget_limit : Int
  category_type : Option TransactionType
deriving DecidableEq

/-- The in-memory `Category` of `store/types.ts`: persisted columns plus the
derived-only stats `totalSpent`/`percentage`, absent (`none`) unless
`calculateMonthSummary` attached them. -/
structure Category where
  id : Int
  name : String
  icon : String
  color : String
  budget_limit : Int
  category_type : Option TransactionType
  totalSpent : Option Int
  percentage : Option Int
deriving DecidableEq

/-- Reading a `categories` row into the in-memory `Category` shape
(`SELECT *` yields no stats columns, so they come back absent). -/
def CatRow.toCategory (c : CatRow) : Category :=
  { id := c.id, name := c.name, icon := c.icon, color := c.color,
    budget_limit := c.budget_limit, category_type := c.category_type,
    totalSpent := none, percentage := none }

/-- A row of the `transactions` table. -/
structure TxnRow where
  id : Int
  category_id : Int
  amount : Int
  date : String
  note : String
  type : Option TransactionType
  image_uri : Option String
  created_at : Option Int
deriving DecidableEq

/-- The in-memory `Transaction` of `store/types.ts`: the row columns plus the
joined category display fields. -/
structure Transaction where
  id : Int
  category_id : Int
  amount : Int
  date : String
  note : String
  type : Option TransactionType
  image_uri : Option String
  created_at : Option Int
  category_name : Option String
  category_icon : Option String
  category_color : Option String
deriving DecidableEq

/-- A row of the `split_bills` table. -/
structure BillRow where
  id : Int
  date : String
  name : String
  total_amount : Int
  image_uri : Option String
  created_at : Option Int
deriving DecidableEq

/-- A row of the `split_bill_members` table; `is_me` is stored as the
integer `1` or `0` (the source encodes the boolean on insert). -/
structure MemberRow where
  id : Int
  split_bill_id : Int
  name : String
  share_amount : Int
  is_me : Int
deriving DecidableEq

/-- The in-memory `SplitBill` of `store/types.ts`; `members` is optional and
`fetchSplitBills` never populates it (members are not eagerly joined). -/
structure SplitBill where
  id : Int
  date : String
  name : String
  total_amount : Int
  image_uri : Option String
  created_at : Option Int
  members : Option (List MemberRow)
deriving DecidableEq

/-- Reading a `split_bills` row into the in-memory shape. -/
def BillRow.toSplitBill (b : BillRow) : SplitBill :=
  { id := b.id, date := b.date, name := b.name, total_amount := b.total_amount,
    image_uri := b.image_uri, created_at := b.created_at, members := none }

/-- The `Omit<Category, 'id'>` argument of `addCategory`.  In the source
`budget_limit` is a required number and is inserted as
`category.budget_limit || 0` (the identity on every number except `NaN`),
while `category_type` is optional and defaulted with `|| 'expense'`. -/
structure CategoryInput where
  name : String
  icon : String
  color : String
  budget_limit : Int
  category_type : Option TransactionType
deriving DecidableEq

/-- The `Partial<Category>` argument of `updateCategory`; only the three
columns the UPDATE statement touches matter. -/
structure CategoryPatch where
  name : Option String
  icon : Option String
  color : Option String
deriving DecidableEq

/-- The transaction argument of `addTransaction` (`Omit<Transaction, 'id' |
'created_at' | joined fields>`). -/
structure TransactionInput where
  category_id : Int
  amount : Int
  date : String
  note : String
  type : Option TransactionType
  image_uri : Option String
deriving DecidableEq

/-- The bill argument of `addSplitBill`. -/
structure BillInput where
  name : String
  date : String
  total_amount : Int
  image_uri : Option String
deriving DecidableEq

/-- A member argument of `addSplitBill` (`Omit<SplitBillMember, 'id' |
'split_bill_id'>`). -/
structure MemberInput where
  name : String
  share_amount : Int
  is_me : Bool
deriving DecidableEq

/-- The durable SQLite state: one list per table, in insertion order, plus
the auto-increment counters that assign row ids. -/
structure DB where
  categories : List CatRow
  transactions : List TxnRow
  split_bills : List BillRow
  split_bill_members : List MemberRow
  nextCategoryId : Int
  nextTransactionId : Int
  nextBillId : Int
  nextMemberId : Int
deriving DecidableEq

/-- The Zustand in-memory state of `useFinanceStore`. -/
structure StoreState where
  transactions : List Transaction
  categories : List Category
  splitBills : List SplitBill
  balance : Int
  totalMonth : Int
  totalIncome : Int
  totalExpense : Int
  isLoading : Bool
deriving DecidableEq

/-- The initial state of the store. -/
def initialState : StoreState :=
  { transactions := [], categories := [], splitBills := [],
    balance := 0, totalMonth := 0, totalIncome := 0, totalExpense := 0,
    isLoading := false }

/-- A failure schedule: one flag per database statement, `true` meaning that
statement raises.  An exhausted schedule means no further failures. -/
abbrev FailSched := List Bool

/-- Consume the next failure flag of a schedule. -/
def nextFail : FailSched → Bool × FailSched
  | [] => (false, [])
  | b :: rest => (b, rest)

/-- Model of `strftime('%Y-%m', date)` for the ISO-8601 `YYYY-MM-DD` date
strings the app stores: the first seven characters. -/
def monthOf (date : String) : String := date.take 7

/-- The SQL filter `(type = 'expense' OR type IS NULL)`. -/
def isExpenseType (t : TxnRow) : Bool :=
  t.type == some TransactionType.expense || t.type == none

/-- Rows selected by `WHERE strftime('%Y-%m', date) = ? AND (type = 'expense'
OR type IS NULL)`. -/
def monthExpenseRows (db : DB) (ym : String) : List TxnRow :=
  db.transactions.filter (fun t => monthOf t.date == ym && isExpenseType t)

/-- The total-expense query: `SELECT COALESCE(SUM(amount), 0) ... AND
(type = 'expense' OR type IS NULL)`. -/
def sqlSumExpense (db : DB) (ym : String) : Int :=
  ((monthExpenseRows db ym).map (fun t => t.amount)).sum

/-- The total-income query: `SELECT COALESCE(SUM(amount), 0) ... AND
type = 'income'`. -/
def sqlSumIncome (db : DB) (ym : String) : Int :=
  ((db.transactions.filter
      (fun t => monthOf t.date == ym && t.type == some TransactionType.income)).map
    (fun t => t.amount)).sum

/-- The category-breakdown query: `SELECT category_id, SUM(amount) ...
GROUP BY category_id` over the month's expense rows.  One output pair per
distinct `category_id` (in order of first occurrence), carrying the sum of
the group's amounts. -/
def sqlBreakdown (db : DB) (ym : String) : List (Int × Int) :=
  let rows := monthExpenseRows db ym
  ((rows.map (fun t => t.category_id)).dedup).map
    (fun cid =>
      (cid, ((rows.filter (fun t => t.category_id == cid)).map (fun t => t.amount)).sum))

/-- Model of the source's `Math.round((catTotal / totalExpense) * 100)`,
computed exactly over the integers for a positive denominator:
`Math.round x = ⌊x + 1/2⌋` and `⌊100 * a / b + 1/2⌋ = ⌊(200 * a + b) /
(2 * b)⌋`; Lean's `Int` division is Euclidean, which is floor division for
the positive divisor `2 * b`.  `roundPercent_eq_round` below equates this
with rounding the exact rational. -/
def roundPercent (a b : Int) : Int := (200 * a + b) / (2 * b)

/-- Insertion step of the sort used to model SQL `ORDER BY`. -/
def insertSorted (le : α → α → Bool) (x : α) : List α → List α
  | [] => [x]
  | y :: ys => if le x y then x :: y :: ys else y :: insertSorted le x ys

/-- Insertion sort by a boolean "comes no later than" relation, modelling
SQL `ORDER BY`. -/
def sortList (le : α → α → Bool) : List α → List α
  | [] => []
  | x :: xs => insertSorted le x (sortList le xs)

/-- `ORDER BY t.date DESC, t.id DESC` for joined transactions. -/
def txnOrder (a b : Transaction) : Bool :=
  decide (b.date < a.date) || (a.date == b.date && decide (b.id ≤ a.id))

/-- `ORDER BY date DESC, id DESC` for split bills. -/
def billOrder (a b : BillRow) : Bool :=
  decide (b.date < a.date) || (a.date == b.date && decide (b.id ≤ a.id))

/-- One joined row of the recent-transactions query: `SELECT t.*, c.name as
category_name, c.icon as category_icon, c.color as category_color`. -/
def joinTransaction (t : TxnRow) (c : CatRow) : Transaction :=
  { id := t.id, category_id := t.category_id, amount := t.amount, date := t.date,
    note := t.note, type := t.type, image_uri := t.image_uri, created_at := t.created_at,
    category_name := some c.name, category_icon := some c.icon,
    category_color := some c.color }

/-- The recent-transactions query: inner `JOIN categories c ON
t.category_id = c.id`, `ORDER BY t.date DESC, t.id DESC`, `LIMIT 20`. -/
def sqlRecentTransactions (db : DB) : List Transaction :=
  let joined := db.transactions.flatMap (fun t =>
    (db.categories.filter (fun c => c.id == t.category_id)).map
      (fun c => joinTransaction t c))
  (sortList txnOrder joined).take 20

/-- `INSERT INTO categories (name, icon, color, budget_limit, category_type)
VALUES (?, ?, ?, ?, ?)` with the source's argument defaulting. -/
def sqlInsertCategory (db : DB) (c : CategoryInput) : DB :=
  { db with
    categories := db.categories ++
      [{ id := db.nextCategoryId, name := c.name, icon := c.icon, color := c.color,
         budget_limit := c.budget_limit,
         category_type := some (c.category_type.getD TransactionType.expense) }],
    nextCategoryId := db.nextCategoryId + 1 }

/-- `UPDATE categories SET name = ?, icon = ?, color = ? WHERE id = ?` with
the source's `category.name || ''` (etc.) argument defaulting. -/
def sqlUpdateCategory (db : DB) (id : Int) (p : CategoryPatch) : DB :=
  { db with
    categories := db.categories.map (fun r =>
      if r.id == id then
        { r with name := p.name.getD "", icon := p.icon.getD "",
                 color := p.color.getD "" }
      else r) }

/-- `DELETE FROM transactions WHERE category_id = ?`. -/
def sqlDeleteTransactionsByCategory (db : DB) (id : Int) : DB :=
  { db with transactions := db.transactions.filter (fun t => !(t.category_id == id)) }

/-- `DELETE FROM categories WHERE id = ?`. -/
def sqlDeleteCategory (db : DB) (id : Int) : DB :=
  { db with categories := db.categories.filter (fun c => !(c.id == id)) }

/-- `INSERT INTO transactions (category_id, amount, date, note, image_uri,
type) VALUES (?, ?, ?, ?, ?, ?)` with the source's `image_uri ?? null` and
`type ?? 'expense'` defaulting. -/
def sqlInsertTransaction (db : DB) (tx : TransactionInput) : DB :=
  { db with
    transactions := db.transactions ++
      [{ id := db.nextTransactionId, category_id := tx.category_id,
         amount := tx.amount, date := tx.date, note := tx.note,
         type := some (tx.type.getD TransactionType.expense),
         image_uri := tx.image_uri, created_at := none }],
    nextTransactionId := db.nextTransactionId + 1 }

/-- `DELETE FROM transactions WHERE id = ?`. -/
def sqlDeleteTransaction (db : DB) (id : Int) : DB :=
  { db with transactions := db.transactions.filter (fun t => !(t.id == id)) }

/-- `SELECT * FROM split_bills ORDER BY date DESC, id DESC`. -/
def sqlSelectSplitBills (db : DB) : List SplitBill :=
  (sortList billOrder db.split_bills).map BillRow.toSplitBill

/-- `INSERT INTO split_bills (name, date, total_amount, image_uri) VALUES
(?, ?, ?, ?)`; also returns `lastInsertRowId`. -/
def sqlInsertSplitBill (db : DB) (b : BillInput) : DB × Int :=
  ({ db with
     split_bills := db.split_bills ++
       [{ id := db.nextBillId, date := b.date, name := b.name,
          total_amount := b.total_amount, image_uri := b.image_uri,
          created_at := none }],
     nextBillId := db.nextBillId + 1 }, db.nextBillId)

/-- The member row written by `addSplitBill`: the boolean `is_me` is encoded
as `1`/`0` (`member.is_me ? 1 : 0`). -/
def mkMemberRow (id : Int) (billId : Int) (m : MemberInput) : MemberRow :=
  { id := id, split_bill_id := billId, name := m.name,
    share_amount := m.share_amount, is_me := if m.is_me then 1 else 0 }

/-- `INSERT INTO split_bill_members (split_bill_id, name, share_amount,
is_me) VALUES (?, ?, ?, ?)`. -/
def sqlInsertMember (db : DB) (billId : Int) (m : MemberInput) : DB :=
  { db with
    split_bill_members := db.split_bill_members ++ [mkMemberRow db.nextMemberId billId m],
    nextMemberId := db.nextMemberId + 1 }

/-- `DELETE FROM split_bills WHERE id = ?` (members are not deleted). -/
def sqlDeleteSplitBill (db : DB) (id : Int) : DB :=
  { db with split_bills := db.split_bills.filter (fun b => !(b.id == id)) }

/-- `fetchCategories`: `SELECT * FROM categories`, publish as the category
set; a failure is caught and leaves the state untouched. -/
def fetchCategories (s : FailSched) (db : DB) (st : StoreState) :
    StoreState × FailSched :=
  let (f, s1) := nextFail s
  if f then (st, s1)
  else ({ st with categories := db.categories.map CatRow.toCategory }, s1)

/-- `addCategory`: insert the row, then re-run `fetchCategories`; a failure
of the insert is caught and skips the re-fetch. -/
def addCategory (s : FailSched) (db : DB) (st : StoreState) (c : CategoryInput) :
    DB × StoreState × FailSched :=
  let (f, s1) := nextFail s
  if f then (db, st, s1)
  else
    let db1 := sqlInsertCategory db c
    let (st2, s2) := fetchCategories s1 db1 st
    (db1, st2, s2)

/-- `updateCategory`: run the UPDATE, then re-run `fetchCategories`. -/
def updateCategory (s : FailSched) (db : DB) (st : StoreState) (id : Int)
    (p : CategoryPatch) : DB × StoreState × FailSched :=
  let (f, s1) := nextFail s
  if f then (db, st, s1)
  else
    let db1 := sqlUpdateCategory db id p
    let (st2, s2) := fetchCategories s1 db1 st
    (db1, st2, s2)

/-- `deleteCategory`: delete the category's transactions, then the category
row, then re-run `fetchCategories`; a failure at any statement is caught
and aborts the rest. -/
def deleteCategory (s : FailSched) (db : DB) (st : StoreState) (id : Int) :
    DB × StoreState × FailSched :=
  let (f1, s1) := nextFail s
  if f1 then (db, st, s1)
  else
    let db1 := sqlDeleteTransactionsByCategory db id
    let (f2, s2) := nextFail s1
    if f2 then (db1, st, s2)
    else
      let db2 := sqlDeleteCategory db1 id
      let (st3, s3) := fetchCategories s2 db2 st
      (db2, st3, s3)

/-- `fetchRecentTransactions`: the joined, ordered, limited query published
as the transaction cache. -/
def fetchRecentTransactions (s : FailSched) (db : DB) (st : StoreState) :
    StoreState × FailSched :=
  let (f, s1) := nextFail s
  if f then (st, s1)
  else ({ st with transactions := sqlRecentTransactions db }, s1)

/-- One step of the source's `categoriesWithStats` map: look the category id
up in the breakdown (`?.total || 0`), compute the percentage (0 when the
month's total expense is not positive), and attach both to the category.
The month's total expense is referenced through its defining query
`sqlSumExpense`, exactly the value `calculateMonthSummary` computes. -/
def categoryWithStats (db : DB) (ym : String) (cat : Category) : Category :=
  let catTotal := (((sqlBreakdown db ym).find? (fun b => b.1 == cat.id)).map
    (fun b => b.2)).getD 0
  let percentage : Int :=
    if sqlSumExpense db ym > 0 then roundPercent catTotal (sqlSumExpense db ym) else 0
  { cat with totalSpent := some catTotal, percentage := some percentage }

/-- The source's `categoriesWithStats`: every cached category augmented with
its month stats. -/
def categoriesWithStats (db : DB) (ym : String) (cats : List Category) : List Category :=
  cats.map (categoryWithStats db ym)

/-- `calculateMonthSummary`: the three aggregate queries, then one state
update publishing balance, its `totalMonth` alias, the totals and the
category set augmented with `totalSpent`/`percentage`.  `ym` is the
`YYYY-MM` string the source formats from `selectedMonth || new Date()`.
A failure at any query is caught and leaves the state untouched. -/
def calculateMonthSummary (s : FailSched) (db : DB) (st : StoreState) (ym : String) :
    StoreState × FailSched :=
  let (f1, s1) := nextFail s
  if f1 then (st, s1)
  else
    let expenseTotal := sqlSumExpense db ym
    let (f2, s2) := nextFail s1
    if f2 then (st, s2)
    else
      let incomeTotal := sqlSumIncome db ym
      let (f3, s3) := nextFail s2
      if f3 then (st, s3)
      else
        let totalExpense := expenseTotal
        let totalIncome := incomeTotal
        let balance := totalIncome - totalExpense
        ({ st with balance := balance, totalMonth := balance,
                   totalIncome := totalIncome, totalExpense := totalExpense,
                   categories := categoriesWithStats db ym st.categories }, s3)

/-- `addTransaction`: set the busy flag, insert the row, re-fetch recent
transactions, recompute the month summary, and clear the busy flag in the
`finally` block whatever happened. -/
def addTransaction (s : FailSched) (db : DB) (st : StoreState)
    (tx : TransactionInput) (ym : String) : DB × StoreState × FailSched :=
  let st0 := { st with isLoading := true }
  let (f1, s1) := nextFail s
  if f1 then (db, { st0 with isLoading := false }, s1)
  else
    let db1 := sqlInsertTransaction db tx
    let (st2, s2) := fetchRecentTransactions s1 db1 st0
    let (st3, s3) := calculateMonthSummary s2 db1 st2 ym
    (db1, { st3 with isLoading := false }, s3)

/-- `addExpense`: the backward-compatibility alias, delegating to
`addTransaction` unchanged. -/
def addExpense (s : FailSched) (db : DB) (st : StoreState)
    (tx : TransactionInput) (ym : String) : DB × StoreState × FailSched :=
  addTransaction s db st tx ym

/-- `deleteTransaction`: delete by id, re-fetch recent transactions,
recompute the month summary. -/
def deleteTransaction (s : FailSched) (db : DB) (st : StoreState) (id : Int)
    (ym : String) : DB × StoreState × FailSched :=
  let (f1, s1) := nextFail s
  if f1 then (db, st, s1)
  else
    let db1 := sqlDeleteTransaction db id
    let (st2, s2) := fetchRecentTransactions s1 db1 st
    let (st3, s3) := calculateMonthSummary s2 db1 st2 ym
    (db1, st3, s3)

/-- `calculateTotalMonth`: the backward-compatibility alias, delegating to
`calculateMonthSummary` unchanged. -/
def calculateTotalMonth (s : FailSched) (db : DB) (st : StoreState) (ym : String) :
    StoreState × FailSched :=
  calculateMonthSummary s db st ym

/-- `fetchSplitBills`: the ordered bill query published as the split-bill
cache. -/
def fetchSplitBills (s : FailSched) (db : DB) (st : StoreState) :
    StoreState × FailSched :=
  let (f, s1) := nextFail s
  if f then (st, s1)
  else ({ st with splitBills := sqlSelectSplitBills db }, s1)

/-- The sequential member-insert loop of `addSplitBill`.  Returns the
database after the inserts that ran, the remaining schedule, and whether
the loop completed (`false` when an insert raised, aborting the rest). -/
def insertMembers : FailSched → DB → Int → List MemberInput → DB × FailSched × Bool
  | s, db, _, [] => (db, s, true)
  | s, db, billId, m :: rest =>
    let (f, s1) := nextFail s
    if f then (db, s1, false)
    else insertMembers s1 (sqlInsertMember db billId m) billId rest

/-- The member rows the `addSplitBill` loop writes for a member list,
starting at a given next row id: ids are consecutive and the `is_me`
boolean is encoded as `1`/`0` by `mkMemberRow`. -/
def memberRows (nid : Int) (billId : Int) : List MemberInput → List MemberRow
  | [] => []
  | m :: rest => mkMemberRow nid billId m :: memberRows (nid + 1) billId rest

/-- The cumulative database effect of the member-insert loop up to a point:
folding `sqlInsertMember` over a list of members. -/
def insertAll (db : DB) (billId : Int) : List MemberInput → DB
  | [] => db
  | m :: rest => insertAll (sqlInsertMember db billId m) billId rest

/-- `addSplitBill`: insert the bill row, take its generated id, insert each
member sequentially, then re-fetch split bills.  All of it sits in one
`try`, so a failing member insert aborts the remaining inserts and the
re-fetch, with no rollback of what already ran. -/
def addSplitBill (s : FailSched) (db : DB) (st : StoreState) (bill : BillInput)
    (members : List MemberInput) : DB × StoreState × FailSched :=
  let (f1, s1) := nextFail s
  if f1 then (db, st, s1)
  else
    let (db1, billId) := sqlInsertSplitBill db bill
    let (db2, s2, ok) := insertMembers s1 db1 billId members
    if ok then
      let (st3, s3) := fetchSplitBills s2 db2 st
      (db2, st3, s3)
    else (db2, st, s2)

/-- `deleteSplitBill`: delete the bill row only, then re-fetch split bills. -/
def deleteSplitBill (s : FailSched) (db : DB) (st : StoreState) (id : Int) :
    DB × StoreState × FailSched :=
  let (f1, s1) := nextFail s
  if f1 then (db, st, s1)
  else
    let db1 := sqlDeleteSplitBill db id
    let (st2, s2) := fetchSplitBills s1 db1 st
    (db1, st2, s2)

/-- A concrete category row, used by witnesses and counterexamples. -/
def exCategory : CatRow :=
  { id := 1, name := "Food", icon := "f", color := "red", budget_limit := 0,
    category_type := some TransactionType.expense }

/-- A concrete expense transaction row referencing `exCategory`. -/
def exTxnRow : TxnRow :=
  { id := 1, category_id := 1, amount := 50000, date := "2024-06-15", note := "lunch",
    type := some TransactionType.expense, image_uri := none, created_at := none }

/-- A concrete database: one category, one expense transaction. -/
def exDB : DB :=
  { categories := [exCategory], transactions := [exTxnRow], split_bills := [],
    split_bill_members := [], nextCategoryId := 2, nextTransactionId := 2,
    nextBillId := 1, nextMemberId := 1 }

/-- The store state reached from `initialState` by fetching categories and
recent transactions from `exDB` — its transaction cache holds the joined
row for `exTxnRow`. -/
def exStore : StoreState :=
  (fetchRecentTransactions [] exDB ((fetchCategories [] exDB initialState).1)).1

/-- A concrete split-bill input. -/
def exBill : BillInput :=
  { name := "Dinner", date := "2024-06-20", total_amount := 90000, image_uri := none }

/-- A concrete split-bill member input. -/
def exMember : MemberInput := { name := "Alice", share_amount := 45000, is_me := true }

/-- A concrete income transaction row. -/
def exIncomeRow : TxnRow :=
  { id := 1, category_id := 1, amount := 100, date := "2024-06-15", note := "salary",
    type := some TransactionType.income, image_uri := none, created_at := none }

/-- A concrete database holding a single income transaction. -/
def exIncomeDB : DB :=
  { categories := [exCategory], transactions := [exIncomeRow], split_bills := [],
    split_bill_members := [], nextCategoryId := 2, nextTransactionId := 2,
    nextBillId := 1, nextMemberId := 1 }

/-! Helper lemmas about the embedding, shared by the claim theorems. -/

/-- Justification of the integer percentage model: for a positive
denominator it computes exactly `Math.round` of the rational
`a / b * 100`. -/
theorem roundPercent_eq_round (a b : Int) (hb : 0 < b) :
    roundPercent a b = round ((a : ℚ) / (b : ℚ) * 100) := by
  rw [round_eq, roundPercent]
  have hb2 : (0 : ℤ) < 2 * b := by omega
  have h1 : ((a : ℚ) / (b : ℚ) * 100 + 1 / 2)
      = ((200 * a + b : ℤ) : ℚ) / (((2 * b : ℤ).toNat : ℕ) : ℚ) := by
    have hbq : ((b : ℚ)) ≠ 0 := by
      exact_mod_cast (by omega : (b : ℤ) ≠ 0)
    have hcast : (((2 * b : ℤ).toNat : ℕ) : ℚ) = ((2 * b : ℤ) : ℚ) := by
      exact_mod_cast Int.toNat_of_nonneg (le_of_lt hb2)
    rw [hcast]
    push_cast
    field_simp
    ring
  rw [h1, Rat.floor_intCast_div_natCast, Int.toNat_of_nonneg (le_of_lt hb2)]

/-- Membership is preserved by one insertion step of the ORDER BY model. -/
theorem mem_insertSorted {α : Type _} (le : α → α → Bool) (x a : α) :
    ∀ (l : List α), (a ∈ insertSorted le x l ↔ a = x ∨ a ∈ l) := by
  intro l
  induction l with
  | nil => simp [insertSorted]
  | cons y ys ih =>
    simp only [insertSorted]
    cases h : le x y with
    | true => simp [List.mem_cons]
    | false =>
      simp only [h, Bool.false_eq_true, if_false, List.mem_cons, ih]
      tauto

/-- Membership is preserved by the ORDER BY model. -/
theorem mem_sortList {α : Type _} (le : α → α → Bool) (a : α) :
    ∀ (l : List α), (a ∈ sortList le l ↔ a ∈ l) := by
  intro l
  induction l with
  | nil => simp [sortList]
  | cons x xs ih => simp [sortList, mem_insertSorted, ih, List.mem_cons]

/-- A list's mapped sum splits along a boolean filter. -/
theorem sum_filter_add_sum_filter_not {α : Type _} (p : α → Bool) (f : α → Int) :
    ∀ (l : List α),
      ((l.filter p).map f).sum + ((l.filter (fun a => !p a)).map f).sum
        = (l.map f).sum := by
  intro l
  induction l with
  | nil => simp
  | cons a l ih => cases h : p a <;> simp [List.filter_cons, h] <;> omega

/-- Filtering only lowers a sum of nonnegative values. -/
theorem sum_filter_le_sum {α : Type _} (p : α → Bool) (f : α → Int) :
    ∀ (l : List α), (∀ a ∈ l, 0 ≤ f a) →
      ((l.filter p).map f).sum ≤ (l.map f).sum := by
  intro l
  induction l with
  | nil => simp
  | cons a l ih =>
    intro h
    have ha := h a (List.mem_cons_self a l)
    have ih' := ih (fun b hb => h b (List.mem_cons_of_mem a hb))
    cases hpa : p a <;> simp [List.filter_cons, hpa] <;> omega

/-- Looking a category id up in the GROUP BY result (with 0 as the default)
yields the plain sum over that category's rows of the month. -/
theorem breakdown_find_eq (db : DB) (ym : String) (cid : Int) :
    (((sqlBreakdown db ym).find? (fun b => b.1 == cid)).map (fun b => b.2)).getD 0
      = (((monthExpenseRows db ym).filter (fun t => t.category_id == cid)).map
          (fun t => t.amount)).sum := by
  have hmain : (sqlBreakdown db ym).find? (fun b => b.1 == cid)
      = Option.map
          (fun c =>
            (c, (((monthExpenseRows db ym).filter
                (fun t => t.category_id == c)).map (fun t => t.amount)).sum))
          ((((monthExpenseRows db ym).map (fun t => t.category_id)).dedup).find?
            (fun c => c == cid)) := by
    unfold sqlBreakdown
    rw [List.find?_map]
    rfl
  rw [hmain]
  cases h : (((monthExpenseRows db ym).map (fun t => t.category_id)).dedup).find?
      (fun c => c == cid) with
  | none =>
    have hnotmem : cid ∉ ((monthExpenseRows db ym).map (fun t => t.category_id)).dedup := by
      intro hmem
      have := List.find?_eq_none.mp h cid hmem
      simp at this
    have hempty : (monthExpenseRows db ym).filter (fun t => t.category_id == cid) = [] := by
      rw [List.filter_eq_nil_iff]
      intro t ht hbeq
      apply hnotmem
      rw [List.mem_dedup]
      exact List.mem_map.mpr ⟨t, ht, by simpa using hbeq⟩
    simp [hempty]
  | some c =>
    have hc : c = cid := by
      have := List.find?_some h
      simpa using this
    subst hc
    simp

/-- The member-insert loop with an exhausted schedule runs all inserts. -/
theorem insertMembers_nil_sched (billId : Int) :
    ∀ (ms : List MemberInput) (db : DB),
      insertMembers [] db billId ms = (insertAll db billId ms, [], true) := by
  intro ms
  induction ms with
  | nil => intro db; rfl
  | cons m rest ih => intro db; simpa [insertMembers, insertAll, nextFail] using ih _

/-- The member-insert loop with an all-`false` schedule runs all inserts and
leaves the rest of the schedule. -/
theorem insertMembers_all_ok (billId : Int) :
    ∀ (ms : List MemberInput) (db : DB) (s' : FailSched),
      insertMembers (List.replicate ms.length false ++ s') db billId ms
        = (insertAll db billId ms, s', true) := by
  intro ms
  induction ms with
  | nil => intro db s'; rfl
  | cons m rest ih =>
    intro db s'
    simpa [insertMembers, insertAll, nextFail, List.replicate_succ] using ih _ _

/-- The member-insert loop whose `(j+1)`-st statement fails performs exactly
the first `j` inserts and reports failure. -/
theorem insertMembers_fail_at (billId : Int) :
    ∀ (j : Nat) (ms : List MemberInput) (db : DB), j < ms.length →
      insertMembers (List.replicate j false ++ [true]) db billId ms
        = (insertAll db billId (ms.take j), [], false) := by
  intro j
  induction j with
  | zero =>
    intro ms db h
    cases ms with
    | nil => simp at h
    | cons m rest => rfl
  | succ j ih =>
    intro ms db h
    cases ms with
    | nil => simp at h
    | cons m rest =>
      have h' : j < rest.length := by simpa using h
      simpa [insertMembers, nextFail, List.replicate_succ, insertAll, List.take] using
        ih rest (sqlInsertMember db billId m) h'

/-- Member inserts do not touch the `split_bills` table. -/
theorem insertAll_split_bills (billId : Int) :
    ∀ (ms : List MemberInput) (db : DB),
      (insertAll db billId ms).split_bills = db.split_bills := by
  intro ms
  induction ms with
  | nil => intro db; rfl
  | cons m rest ih => intro db; simpa [insertAll, sqlInsertMember] using ih _

/-- Member inserts append exactly the encoded member rows, with consecutive
ids. -/
theorem insertAll_members (billId : Int) :
    ∀ (ms : List MemberInput) (db : DB),
      (insertAll db billId ms).split_bill_members
        = db.split_bill_members ++ memberRows db.nextMemberId billId ms := by
  intro ms
  induction ms with
  | nil => intro db; simp [insertAll, memberRows]
  | cons m rest ih =>
    intro db
    rw [insertAll, ih (sqlInsertMember db billId m)]
    simp [sqlInsertMember, memberRows, List.append_assoc]

/-- Summing disjoint per-category groups of nonnegative amounts never
exceeds the month's total. -/
theorem sum_groups_le_sum :
    ∀ (ids : List Int) (rows : List TxnRow), ids.Nodup → (∀ t ∈ rows, 0 ≤ t.amount) →
      (ids.map (fun cid =>
          ((rows.filter (fun t => t.category_id == cid)).map (fun t => t.amount)).sum)).sum
        ≤ (rows.map (fun t => t.amount)).sum := by
  intro ids
  induction ids with
  | nil =>
    intro rows _ hpos
    simp only [List.map_nil, List.sum_nil]
    apply List.sum_nonneg
    intro x hx
    obtain ⟨t, ht, rfl⟩ := List.mem_map.mp hx
    exact hpos t ht
  | cons c ids ih =>
    intro rows hnd hpos
    have hc : c ∉ ids := (List.nodup_cons.mp hnd).1
    have hnd' : ids.Nodup := (List.nodup_cons.mp hnd).2
    have hpos' : ∀ t ∈ rows.filter (fun t => !(t.category_id == c)), 0 ≤ t.amount :=
      fun t ht => hpos t (List.mem_filter.mp ht).1
    have hswap : ∀ cid ∈ ids,
        rows.filter (fun t => t.category_id == cid)
          = (rows.filter (fun t => !(t.category_id == c))).filter
              (fun t => t.category_id == cid) := by
      intro cid hcid
      have hne : cid ≠ c := fun hEq => hc (hEq ▸ hcid)
      rw [List.filter_filter]
      apply List.filter_congr
      intro t _
      cases hct : (t.category_id == cid) with
      | false => simp
      | true =>
        have htc : t.category_id = cid := by simpa using hct
        have : (t.category_id == c) = false := by
          simp [htc]
          exact hne
        simp [this]
    have hmapeq :
        (ids.map (fun cid =>
            ((rows.filter (fun t => t.category_id == cid)).map (fun t => t.amount)).sum)).sum
          = (ids.map (fun cid =>
              (((rows.filter (fun t => !(t.category_id == c))).filter
                  (fun t => t.category_id == cid)).map (fun t => t.amount)).sum)).sum := by
      apply congrArg List.sum
      apply List.map_congr_left
      intro cid hcid
      rw [hswap cid hcid]
    have hIH := ih (rows.filter (fun t => !(t.category_id == c))) hnd' hpos'
    have hsplit := sum_filter_add_sum_filter_not (fun t => t.category_id == c)
      (fun t => t.amount) rows
    simp only [List.map_cons, List.sum_cons, hmapeq]
    omega

/-- Summing an affine image of a list. -/
theorem sum_map_linear {α : Type _} (l : List α) (f : α → Int) (a b : Int) :
    (l.map (fun x => a * f x + b)).sum = a * (l.map f).sum + (l.length : Int) * b := by
  induction l with
  | nil => simp
  | cons x xs ih =>
    simp only [List.map_cons, List.sum_cons, List.length_cons, ih]
    push_cast
    ring

/-- Summing a constantly-zero image of a list. -/
theorem sum_map_zero {α : Type _} : ∀ (l : List α), (l.map (fun _ => (0 : Int))).sum = 0 := by
  intro l
  induction l with
  | nil => simp
  | cons x xs ih => simp [ih]

/-- A member row written by the loop always encodes `is_me` as `1` or `0`. -/
theorem memberRows_is_me (billId : Int) :
    ∀ (ms : List MemberInput) (nid : Int) (r : MemberRow),
      r ∈ memberRows nid billId ms → r.is_me = 1 ∨ r.is_me = 0 := by
  intro ms
  induction ms with
  | nil => intro nid r hr; simp [memberRows] at hr
  | cons m rest ih =>
    intro nid r hr
    rcases List.mem_cons.mp hr with h | h
    · subst h
      cases hme : m.is_me <;> simp [mkMemberRow, hme]
    · exact ih (nid + 1) r h

/-- An `addSplitBill` run whose bill insert succeeds and whose `(j+1)`-st
member insert fails evaluates to: the first `j` member inserts applied on
top of the bill insert, the store untouched, the schedule consumed. -/
theorem addSplitBill_memberFail (db : DB) (st : StoreState) (bill : BillInput)
    (members : List MemberInput) (j : Nat) (hj : j < members.length) :
    addSplitBill (false :: (List.replicate j false ++ [true])) db st bill members
      = (insertAll (sqlInsertSplitBill db bill).1 db.nextBillId (members.take j), st, []) := by
  show (match insertMembers (List.replicate j false ++ [true])
      (sqlInsertSplitBill db bill).1 db.nextBillId members with
    | (db2, s2, ok) =>
      if ok then
        (db2, fetchSplitBills s2 db2 st)
      else (db2, st, s2) : DB × StoreState × FailSched) = _
  rw [insertMembers_fail_at db.nextBillId j members (sqlInsertSplitBill db bill).1 hj]
  rfl

/-- C9: the backward-compatibility aliases delegate unchanged — `addExpense`
behaves identically to `addTransaction` on every state and argument
(whatever the transaction's type), and `calculateTotalMonth` behaves
identically to `calculateMonthSummary` for every month argument. -/
theorem aliases_behave_identically :
    (∀ (s : FailSched) (db : DB) (st : StoreState) (tx : TransactionInput) (ym : String),
        addExpense s db st tx ym = addTransaction s db st tx ym)
  ∧ (∀ (s : FailSched) (db : DB) (st : StoreState) (ym : String),
        calculateTotalMonth s db st ym = calculateMonthSummary s db st ym) :=
  ⟨fun _ _ _ _ _ => rfl, fun _ _ _ _ => rfl⟩

/-- C2, counterexample: in the concrete state `exStore` (whose transaction
cache holds a joined transaction with `category_id = 1`), running
`deleteCategory` on id 1 with no database failure leaves that stale row in
the in-memory transaction cache — the claimed post-condition "no
transaction in the in-memory cache references the deleted id" is false. -/
theorem deleteCategory_stale_cache_cex :
    ¬ (∀ t ∈ (deleteCategory [] exDB exStore 1).2.1.transactions, t.category_id ≠ 1) := by
  decide

/-- C2 (amended): `deleteCategory` first deletes every transaction whose
`category_id` equals the id, then the category row, then re-fetches
categories; afterwards no transaction in the durable store and no category
row references the deleted id, and the refreshed category cache mirrors
the store — but the in-memory transaction cache is not re-fetched and is
left exactly as it was (it may still reference the deleted id). -/
theorem deleteCategory_spec (db : DB) (st : StoreState) (id : Int) :
    (∀ t ∈ (deleteCategory [] db st id).1.transactions, t.category_id ≠ id)
  ∧ (∀ c ∈ (deleteCategory [] db st id).1.categories, c.id ≠ id)
  ∧ (deleteCategory [] db st id).2.1.categories
      = (deleteCategory [] db st id).1.categories.map CatRow.toCategory
  ∧ (deleteCategory [] db st id).2.1.transactions = st.transactions
  ∧ (deleteCategory [] db st id).2.1.splitBills = st.splitBills := by
  refine ⟨?_, ?_, rfl, rfl, rfl⟩
  · intro t ht
    have ht' : t ∈ db.transactions.filter (fun x => !(x.category_id == id)) := ht
    have := (List.mem_filter.mp ht').2
    simpa using this
  · intro c hc
    have hc' : c ∈ db.categories.filter (fun x => !(x.id == id)) := hc
    have := (List.mem_filter.mp hc').2
    simpa using this

/-- C2, witness: the amended theorem instantiated on the concrete database
`exDB` and cache `exStore`. -/
theorem deleteCategory_spec_witness :
    (∀ t ∈ (deleteCategory [] exDB exStore 1).1.transactions, t.category_id ≠ 1)
  ∧ (deleteCategory [] exDB exStore 1).2.1.transactions = exStore.transactions :=
  ⟨(deleteCategory_spec exDB exStore 1).1, (deleteCategory_spec exDB exStore 1).2.2.2.1⟩

/-- C4: `updateCategory` writes only the `name`, `icon` and `color` columns
of the row with the given id — a field omitted from the partial input is
set to the empty string (not left unchanged) — while `budget_limit`,
`category_type` and `id` are never modified, rows with other ids are left
untouched, and the transactions table is untouched. -/
theorem updateCategory_spec (db : DB) (st : StoreState) (id : Int) (p : CategoryPatch) :
    (updateCategory [] db st id p).1.transactions = db.transactions
  ∧ (updateCategory [] db st id p).1.categories
      = db.categories.map (fun r =>
          if r.id = id then
            { r with name := p.name.getD "", icon := p.icon.getD "",
                     color := p.color.getD "" }
          else r)
  ∧ (∀ r ∈ db.categories, ∃ r' ∈ (updateCategory [] db st id p).1.categories,
      r'.id = r.id ∧ r'.budget_limit = r.budget_limit ∧ r'.category_type = r.category_type
      ∧ (r.id = id → (r'.name = p.name.getD "" ∧ r'.icon = p.icon.getD ""
          ∧ r'.color = p.color.getD ""))
      ∧ (r.id ≠ id → r' = r)) := by
  have hcats : (updateCategory [] db st id p).1.categories
      = db.categories.map (fun r =>
          if r.id = id then
            { r with name := p.name.getD "", icon := p.icon.getD "",
                     color := p.color.getD "" }
          else r) := by
    have : (updateCategory [] db st id p).1.categories
        = db.categories.map (fun r =>
            if r.id == id then
              { r with name := p.name.getD "", icon := p.icon.getD "",
                       color := p.color.getD "" }
            else r) := rfl
    rw [this]
    apply List.map_congr_left
    intro r _
    by_cases h : r.id = id <;> simp [h]
  refine ⟨rfl, hcats, ?_⟩
  intro r hr
  refine ⟨if r.id = id then
      { r with name := p.name.getD "", icon := p.icon.getD "",
               color := p.color.getD "" }
    else r, ?_, ?_⟩
  · rw [hcats]
    exact List.mem_map_of_mem _ hr
  · by_cases h : r.id = id <;> simp [h]

/-- C4, witness: updating category 1 of `exDB` with only a new name blanks
the omitted icon and color and keeps `budget_limit`/`category_type`. -/
theorem updateCategory_spec_witness :
    (updateCategory [] exDB exStore 1
        { name := some "Drinks", icon := none, color := none }).1.categories
      = [{ exCategory with name := "Drinks", icon := "", color := "" }] := by
  have h := (updateCategory_spec exDB exStore 1
    { name := some "Drinks", icon := none, color := none }).2.1
  rw [h]
  decide

/-- C3: every store operation catches its own database failures and leaves
the in-memory state unchanged.  Each conjunct exercises one failing
database statement of one operation's own `try` block (the statement
before any dependent re-fetch; dependent re-fetches are themselves
operations with their own `catch`, covered by their own conjuncts): the
operation returns normally (it is a total function — nothing propagates to
the caller) and the prior state fields are returned untouched, except that
`addTransaction` still clears `isLoading` to `false` in its `finally`
block. -/
theorem ops_swallow_failures (db : DB) (st : StoreState) (s : FailSched) :
    (fetchCategories (true :: s) db st = (st, s))
  ∧ (∀ c, addCategory (true :: s) db st c = (db, st, s))
  ∧ (∀ c, (addCategory (false :: true :: s) db st c).2.1 = st)
  ∧ (∀ id p, updateCategory (true :: s) db st id p = (db, st, s))
  ∧ (∀ id p, (updateCategory (false :: true :: s) db st id p).2.1 = st)
  ∧ (∀ id, deleteCategory (true :: s) db st id = (db, st, s))
  ∧ (∀ id, (deleteCategory (false :: true :: s) db st id).2.1 = st)
  ∧ (∀ id, (deleteCategory (false :: false :: true :: s) db st id).2.1 = st)
  ∧ (∀ tx ym, addTransaction (true :: s) db st tx ym
        = (db, { st with isLoading := false }, s))
  ∧ (fetchRecentTransactions (true :: s) db st = (st, s))
  ∧ (∀ id ym, deleteTransaction (true :: s) db st id ym = (db, st, s))
  ∧ (∀ ym, calculateMonthSummary (true :: s) db st ym = (st, s))
  ∧ (∀ ym, calculateMonthSummary (false :: true :: s) db st ym = (st, s))
  ∧ (∀ ym, calculateMonthSummary (false :: false :: true :: s) db st ym = (st, s))
  ∧ (fetchSplitBills (true :: s) db st = (st, s))
  ∧ (∀ bill members, addSplitBill (true :: s) db st bill members = (db, st, s))
  ∧ (∀ bill members (j : Nat), j < members.length →
      (addSplitBill (false :: (List.replicate j false ++ [true])) db st bill members).2.1
        = st)
  ∧ (∀ bill members,
      (addSplitBill (false :: (List.replicate members.length false ++ (true :: s)))
          db st bill members).2.1 = st)
  ∧ (∀ id, deleteSplitBill (true :: s) db st id = (db, st, s))
  ∧ (∀ id, (deleteSplitBill (false :: true :: s) db st id).2.1 = st) := by
  refine ⟨rfl, fun _ => rfl, fun _ => rfl, fun _ _ => rfl, fun _ _ => rfl, fun _ => rfl,
    fun _ => rfl, fun _ => rfl, fun _ _ => rfl, rfl, fun _ _ => rfl, fun _ => rfl,
    fun _ => rfl, fun _ => rfl, rfl, fun _ _ => rfl, ?_, ?_, fun _ => rfl, fun _ => rfl⟩
  · intro bill members j hj
    rw [addSplitBill_memberFail db st bill members j hj]
  · intro bill members
    show (match insertMembers (List.replicate members.length false ++ (true :: s))
        (sqlInsertSplitBill db bill).1 db.nextBillId members with
      | (db2, s2, ok) =>
        if ok then
          (db2, fetchSplitBills s2 db2 st)
        else (db2, st, s2) : DB × StoreState × FailSched).2.1 = st
    rw [insertMembers_all_ok db.nextBillId members (sqlInsertSplitBill db bill).1 (true :: s)]
    rfl

/-- C3, witness: the member-insert conjunct instantiated on concrete data,
with its hypothesis discharged. -/
theorem ops_swallow_failures_witness :
    (0 : Nat) < ([exMember] : List MemberInput).length
  ∧ (addSplitBill (false :: (List.replicate 0 false ++ [true]))
        exDB exStore exBill [exMember]).2.1 = exStore :=
  ⟨by decide,
    (ops_swallow_failures exDB exStore
      []).2.2.2.2.2.2.2.2.2.2.2.2.2.2.2.2.1 exBill [exMember] 0 (by decide)⟩

/-- C5: if the bill insert succeeds and the `(j+1)`-st member insert fails
(`j + 1 ≤ N`, zero-based `j`), `addSplitBill` leaves the bill row and
exactly the first `j` member rows persisted, performs no compensating
rollback, leaves the in-memory state untouched (the error is only
logged, nothing is thrown), a subsequent `fetchSplitBills` reflects the
persisted bill, and every persisted member row encodes `is_me` as `1` or
`0`. -/
theorem addSplitBill_failure_midway (db : DB) (st : StoreState) (bill : BillInput)
    (members : List MemberInput) (j : Nat) (hj : j < members.length) :
    ((addSplitBill (false :: (List.replicate j false ++ [true])) db st bill
        members).1.split_bills
      = db.split_bills ++
          [{ id := db.nextBillId, date := bill.date, name := bill.name,
             total_amount := bill.total_amount, image_uri := bill.image_uri,
             created_at := none }])
  ∧ ((addSplitBill (false :: (List.replicate j false ++ [true])) db st bill
        members).1.split_bill_members
      = db.split_bill_members ++ memberRows db.nextMemberId db.nextBillId (members.take j))
  ∧ ((addSplitBill (false :: (List.replicate j false ++ [true])) db st bill
        members).2.1 = st)
  ∧ (BillRow.toSplitBill
        { id := db.nextBillId, date := bill.date, name := bill.name,
          total_amount := bill.total_amount, image_uri := bill.image_uri,
          created_at := none }
      ∈ (fetchSplitBills []
          (addSplitBill (false :: (List.replicate j false ++ [true])) db st bill members).1
          (addSplitBill (false :: (List.replicate j false ++ [true])) db st bill
            members).2.1).1.splitBills)
  ∧ (∀ r ∈ (addSplitBill (false :: (List.replicate j false ++ [true])) db st bill
        members).1.split_bill_members,
      r ∈ db.split_bill_members ∨ r.is_me = 1 ∨ r.is_me = 0) := by
  rw [addSplitBill_memberFail db st bill members j hj]
  have hbills : (insertAll (sqlInsertSplitBill db bill).1 db.nextBillId
      (members.take j)).split_bills
      = db.split_bills ++
          [{ id := db.nextBillId, date := bill.date, name := bill.name,
             total_amount := bill.total_amount, image_uri := bill.image_uri,
             created_at := none }] :=
    insertAll_split_bills db.nextBillId (members.take j) (sqlInsertSplitBill db bill).1
  have hmembers : (insertAll (sqlInsertSplitBill db bill).1 db.nextBillId
      (members.take j)).split_bill_members
      = db.split_bill_members ++ memberRows db.nextMemberId db.nextBillId (members.take j) :=
    insertAll_members db.nextBillId (members.take j) (sqlInsertSplitBill db bill).1
  refine ⟨hbills, hmembers, rfl, ?_, ?_⟩
  · show BillRow.toSplitBill _ ∈ sqlSelectSplitBills _
    unfold sqlSelectSplitBills
    apply List.mem_map_of_mem
    rw [mem_sortList, hbills]
    simp
  · intro r hr
    rw [hmembers] at hr
    rcases List.mem_append.mp hr with h | h
    · exact Or.inl h
    · exact Or.inr (memberRows_is_me db.nextBillId (members.take j) db.nextMemberId r h)

/-- C5, witness: a one-member bill whose single member insert fails leaves
the bill row and no member row, with the hypothesis discharged on the
concrete input. -/
theorem addSplitBill_failure_midway_witness :
    (0 : Nat) < ([exMember] : List MemberInput).length
  ∧ (addSplitBill (false :: (List.replicate 0 false ++ [true]))
        exDB exStore exBill [exMember]).1.split_bills
      = exDB.split_bills ++
          [{ id := exDB.nextBillId, date := exBill.date, name := exBill.name,
             total_amount := exBill.total_amount, image_uri := exBill.image_uri,
             created_at := none }] :=
  ⟨by decide,
    (addSplitBill_failure_midway exDB exStore exBill [exMember] 0 (by decide)).1⟩

/-- Removing the rows whose id filters to exactly `[t]` lowers a filtered
amount sum by exactly `t.amount`, for any row filter satisfied by `t`. -/
theorem sum_after_remove (p : TxnRow → Bool) (t : TxnRow) (l : List TxnRow)
    (huniq : l.filter (fun x => x.id == t.id) = [t]) (hpt : p t = true) :
    (((l.filter (fun x => !(x.id == t.id))).filter p).map (fun x => x.amount)).sum
      = ((l.filter p).map (fun x => x.amount)).sum - t.amount := by
  have hcomm : (l.filter (fun x => !(x.id == t.id))).filter p
      = (l.filter p).filter (fun x => !(x.id == t.id)) := by
    rw [List.filter_filter, List.filter_filter]
    apply List.filter_congr
    intro x _
    cases p x <;> cases x.id == t.id <;> rfl
  have heq : (l.filter p).filter (fun x => x.id == t.id) = [t] := by
    have hswap : (l.filter p).filter (fun x => x.id == t.id)
        = (l.filter (fun x => x.id == t.id)).filter p := by
      rw [List.filter_filter, List.filter_filter]
      apply List.filter_congr
      intro x _
      cases p x <;> cases x.id == t.id <;> rfl
    rw [hswap, huniq]
    simp [List.filter_cons, hpt]
  have hsplit := sum_filter_add_sum_filter_not (fun x => x.id == t.id)
    (fun x => x.amount) (l.filter p)
  rw [heq] at hsplit
  simp only [List.map_cons, List.map_nil, List.sum_cons, List.sum_nil] at hsplit
  rw [hcomm]
  omega

/-- C6: `calculateMonthSummary` is idempotent — running it a second time on
the state the first run produced, with the same month and the unchanged
database, returns exactly the state (and remaining schedule) of the single
run. -/
theorem calculateMonthSummary_idempotent (db : DB) (st : StoreState) (ym : String) :
    calculateMonthSummary [] db ((calculateMonthSummary [] db st ym).1) ym
      = calculateMonthSummary [] db st ym := by
  have hcats : categoriesWithStats db ym ((calculateMonthSummary [] db st ym).1.categories)
      = (calculateMonthSummary [] db st ym).1.categories := by
    show categoriesWithStats db ym (categoriesWithStats db ym st.categories)
      = categoriesWithStats db ym st.categories
    unfold categoriesWithStats
    rw [List.map_map]
    apply List.map_congr_left
    intro c _
    rfl
  have h1 : (calculateMonthSummary [] db ((calculateMonthSummary [] db st ym).1) ym).1
      = (calculateMonthSummary [] db st ym).1 := by
    show { (calculateMonthSummary [] db st ym).1 with
            balance := sqlSumIncome db ym - sqlSumExpense db ym,
            totalMonth := sqlSumIncome db ym - sqlSumExpense db ym,
            totalIncome := sqlSumIncome db ym,
            totalExpense := sqlSumExpense db ym,
            categories :=
              categoriesWithStats db ym ((calculateMonthSummary [] db st ym).1.categories) }
        = (calculateMonthSummary [] db st ym).1
    rw [hcats]
    rfl
  rw [Prod.ext_iff]
  exact ⟨h1, rfl⟩

/-- C8, counterexample: deleting an *income* transaction and recomputing the
month summary does not decrease `totalExpense` by the transaction's
amount — `totalExpense` stays 0 while the claim demands it drop by 100. -/
theorem deleteTransaction_totalExpense_cex :
    ¬ ((deleteTransaction [] exIncomeDB
          ((calculateMonthSummary [] exIncomeDB initialState "2024-06").1)
          1 "2024-06").2.1.totalExpense
        = (calculateMonthSummary [] exIncomeDB initialState "2024-06").1.totalExpense
            - exIncomeRow.amount) := by
  decide

/-- C8 (amended): for a transaction of expense (or absent) type, dated in
the target month, and uniquely identified by its id among the stored
transactions, `deleteTransaction` followed by the month-summary
recomputation it performs yields a `totalExpense` exactly the prior
summary's `totalExpense` decreased by the transaction's amount. -/
theorem deleteTransaction_decreases_totalExpense (db : DB) (st st0 : StoreState)
    (t : TxnRow) (ym : String)
    (huniq : db.transactions.filter (fun x => x.id == t.id) = [t])
    (hmonth : monthOf t.date = ym)
    (htype : isExpenseType t = true) :
    (deleteTransaction [] db st t.id ym).2.1.totalExpense
      = (calculateMonthSummary [] db st0 ym).1.totalExpense - t.amount := by
  show (((db.transactions.filter (fun x => !(x.id == t.id))).filter
        (fun x => monthOf x.date == ym && isExpenseType x)).map (fun x => x.amount)).sum
      = ((db.transactions.filter
            (fun x => monthOf x.date == ym && isExpenseType x)).map (fun x => x.amount)).sum
          - t.amount
  apply sum_after_remove (fun x => monthOf x.date == ym && isExpenseType x) t
    db.transactions huniq
  simp [hmonth, htype]

/-- C8, witness: the amended theorem instantiated on the concrete expense
transaction of `exDB`, with every hypothesis discharged. -/
theorem deleteTransaction_decreases_totalExpense_witness :
    exDB.transactions.filter (fun x => x.id == exTxnRow.id) = [exTxnRow]
  ∧ (deleteTransaction [] exDB exStore exTxnRow.id "2024-06").2.1.totalExpense
      = (calculateMonthSummary [] exDB exStore "2024-06").1.totalExpense
          - exTxnRow.amount :=
  ⟨by decide,
    deleteTransaction_decreases_totalExpense exDB exStore exStore exTxnRow "2024-06"
      (by decide) (by decide) (by decide)⟩

/-- C10: `fetchRecentTransactions` inner-joins transactions to categories:
every cached transaction carries the matching category's name, icon and
color as joined fields, and a stored transaction whose `category_id`
matches no category row yields no cache entry (same id and category id). -/
theorem fetchRecentTransactions_join_spec (db : DB) (st : StoreState) :
    (∀ tx ∈ (fetchRecentTransactions [] db st).1.transactions,
        ∃ c ∈ db.categories, c.id = tx.category_id
          ∧ tx.category_name = some c.name
          ∧ tx.category_icon = some c.icon
          ∧ tx.category_color = some c.color)
  ∧ (∀ t ∈ db.transactions, (∀ c ∈ db.categories, c.id ≠ t.category_id) →
      ∀ tx ∈ (fetchRecentTransactions [] db st).1.transactions,
        ¬ (tx.id = t.id ∧ tx.category_id = t.category_id)) := by
  have hmain : ∀ tx ∈ (fetchRecentTransactions [] db st).1.transactions,
      ∃ c ∈ db.categories, c.id = tx.category_id
        ∧ tx.category_name = some c.name
        ∧ tx.category_icon = some c.icon
        ∧ tx.category_color = some c.color := by
    intro tx htx
    have htx' : tx ∈ sortList txnOrder (db.transactions.flatMap (fun t =>
        (db.categories.filter (fun c => c.id == t.category_id)).map
          (fun c => joinTransaction t c))) := List.take_subset 20 _ htx
    rw [mem_sortList] at htx'
    obtain ⟨t, _, htx2⟩ := List.mem_flatMap.mp htx'
    obtain ⟨c, hc, rfl⟩ := List.mem_map.mp htx2
    have hcmem := (List.mem_filter.mp hc).1
    have hcid : c.id = t.category_id := by simpa using (List.mem_filter.mp hc).2
    exact ⟨c, hcmem, hcid, rfl, rfl, rfl⟩
  refine ⟨hmain, ?_⟩
  rintro t _ hnone tx htx ⟨_, hcid⟩
  obtain ⟨c, hcmem, hceq, -⟩ := hmain tx htx
  exact hnone c hcmem (by rw [hceq, hcid])

/-- C10, witness: on `exDB`, the cached transaction is the join of
`exTxnRow` with `exCategory`, and the theorem instantiates on it. -/
theorem fetchRecentTransactions_join_spec_witness :
    joinTransaction exTxnRow exCategory
        ∈ (fetchRecentTransactions [] exDB initialState).1.transactions
  ∧ ∃ c ∈ exDB.categories,
      c.id = (joinTransaction exTxnRow exCategory).category_id
        ∧ (joinTransaction exTxnRow exCategory).category_name = some c.name
        ∧ (joinTransaction exTxnRow exCategory).category_icon = some c.icon
        ∧ (joinTransaction exTxnRow exCategory).category_color = some c.color :=
  ⟨by decide,
    (fetchRecentTransactions_join_spec exDB initialState).1
      (joinTransaction exTxnRow exCategory) (by decide)⟩

/-- C1: for every target month, a successful `calculateMonthSummary`
publishes, in one state update: `totalExpense` as the sum of amounts of
the month's transactions whose type is `expense` or absent, `totalIncome`
as the sum of amounts of the month's `income` transactions, `balance` as
income minus expense (and the `totalMonth` alias equal to it), and every
cached category augmented with `totalSpent` (0 when the category has no
matching expense row of the month) and `percentage` equal to the rounded
value of `totalSpent / totalExpense * 100`, defined as 0 whenever
`totalExpense` is 0.  Amounts are assumed nonnegative, as the app
validates them before insert. -/
theorem calculateMonthSummary_spec (db : DB) (st : StoreState) (ym : String)
    (hpos : ∀ t ∈ db.transactions, 0 ≤ t.amount) :
    ((calculateMonthSummary [] db st ym).1.totalExpense
        = ((db.transactions.filter (fun x =>
              monthOf x.date == ym
                && (x.type == some TransactionType.expense || x.type == none))).map
            (fun x => x.amount)).sum)
  ∧ ((calculateMonthSummary [] db st ym).1.totalIncome
        = ((db.transactions.filter (fun x =>
              monthOf x.date == ym && x.type == some TransactionType.income)).map
            (fun x => x.amount)).sum)
  ∧ ((calculateMonthSummary [] db st ym).1.balance
        = (calculateMonthSummary [] db st ym).1.totalIncome
            - (calculateMonthSummary [] db st ym).1.totalExpense)
  ∧ ((calculateMonthSummary [] db st ym).1.totalMonth
        = (calculateMonthSummary [] db st ym).1.balance)
  ∧ ((calculateMonthSummary [] db st ym).1.categories
        = st.categories.map (fun cat =>
            { cat with
              totalSpent := some (((db.transactions.filter (fun x =>
                  monthOf x.date == ym
                    && (x.type == some TransactionType.expense || x.type == none)
                    && x.category_id == cat.id)).map (fun x => x.amount)).sum),
              percentage := some
                (if (calculateMonthSummary [] db st ym).1.totalExpense = 0 then 0
                 else round
                   (((((db.transactions.filter (fun x =>
                        monthOf x.date == ym
                          && (x.type == some TransactionType.expense || x.type == none)
                          && x.category_id == cat.id)).map (fun x => x.amount)).sum : Int) : ℚ)
                     / (((calculateMonthSummary [] db st ym).1.totalExpense : Int) : ℚ)
                     * 100)) })) := by
  have hTEnn : 0 ≤ sqlSumExpense db ym := by
    apply List.sum_nonneg
    intro x hx
    obtain ⟨t, ht, rfl⟩ := List.mem_map.mp hx
    have ht' : t ∈ db.transactions.filter
        (fun t => monthOf t.date == ym && isExpenseType t) := ht
    exact hpos t (List.mem_filter.mp ht').1
  refine ⟨rfl, rfl, rfl, rfl, ?_⟩
  show categoriesWithStats db ym st.categories = _
  unfold categoriesWithStats
  apply List.map_congr_left
  intro cat _
  have hfilter : (monthExpenseRows db ym).filter (fun t => t.category_id == cat.id)
      = db.transactions.filter (fun x =>
          monthOf x.date == ym
            && (x.type == some TransactionType.expense || x.type == none)
            && x.category_id == cat.id) := by
    unfold monthExpenseRows isExpenseType
    rw [List.filter_filter]
    apply List.filter_congr
    intro t _
    cases monthOf t.date == ym <;>
      cases (t.type == some TransactionType.expense || t.type == none) <;>
        cases t.category_id == cat.id <;> rfl
  have h1 : (((sqlBreakdown db ym).find? (fun b => b.1 == cat.id)).map (fun b => b.2)).getD 0
      = ((db.transactions.filter (fun x =>
          monthOf x.date == ym
            && (x.type == some TransactionType.expense || x.type == none)
            && x.category_id == cat.id)).map (fun x => x.amount)).sum := by
    rw [breakdown_find_eq, hfilter]
  show { cat with
          totalSpent := some ((((sqlBreakdown db ym).find? (fun (b : Int × Int) => b.1 == cat.id)).map
            (fun (b : Int × Int) => b.2)).getD 0),
          percentage := some
            (if sqlSumExpense db ym > 0 then
              roundPercent ((((sqlBreakdown db ym).find? (fun (b : Int × Int) => b.1 == cat.id)).map
                (fun (b : Int × Int) => b.2)).getD 0) (sqlSumExpense db ym)
             else 0) }
      = { cat with
          totalSpent := some (((db.transactions.filter (fun (x : TxnRow) =>
              monthOf x.date == ym
                && (x.type == some TransactionType.expense || x.type == none)
                && x.category_id == cat.id)).map (fun (x : TxnRow) => x.amount)).sum),
          percentage := some
            (if sqlSumExpense db ym = 0 then 0
             else round
               (((((db.transactions.filter (fun (x : TxnRow) =>
                    monthOf x.date == ym
                      && (x.type == some TransactionType.expense || x.type == none)
                      && x.category_id == cat.id)).map (fun (x : TxnRow) => x.amount)).sum : Int) : ℚ)
                 / ((sqlSumExpense db ym : Int) : ℚ) * 100)) }
  rw [h1]
  have hp : (if sqlSumExpense db ym > 0 then
        roundPercent (((db.transactions.filter (fun (x : TxnRow) =>
            monthOf x.date == ym
              && (x.type == some TransactionType.expense || x.type == none)
              && x.category_id == cat.id)).map (fun (x : TxnRow) => x.amount)).sum)
          (sqlSumExpense db ym)
       else 0)
      = (if sqlSumExpense db ym = 0 then 0
         else round
           (((((db.transactions.filter (fun (x : TxnRow) =>
                monthOf x.date == ym
                  && (x.type == some TransactionType.expense || x.type == none)
                  && x.category_id == cat.id)).map (fun (x : TxnRow) => x.amount)).sum : Int) : ℚ)
             / ((sqlSumExpense db ym : Int) : ℚ) * 100)) := by
    rcases eq_or_lt_of_le hTEnn with h | h
    · rw [if_neg (by omega), if_pos (by omega)]
    · rw [if_pos h, if_neg (by omega)]
      exact roundPercent_eq_round _ _ h
  rw [hp]

/-- C1, witness: the theorem instantiated on the concrete database `exDB`
(one 50000 expense in June 2024), hypothesis discharged; the published
`totalExpense` evaluates to 50000. -/
theorem calculateMonthSummary_spec_witness :
    (∀ t ∈ exDB.transactions, 0 ≤ t.amount)
  ∧ (calculateMonthSummary [] exDB exStore "2024-06").1.totalExpense = 50000 :=
  ⟨by decide, by
    have h := (calculateMonthSummary_spec exDB exStore "2024-06" (by decide)).1
    rw [h]
    decide⟩

/-- C7: after a successful `calculateMonthSummary` — with the app's
nonnegative amounts and pairwise-distinct cached category ids — every
computed percentage lies in [0, 100], and the percentages for the fixed
month sum to at most 100 up to the accumulated rounding error: each
rounding adds at most one half, so twice the sum is at most 200 plus the
number of categories. -/
theorem percentages_bounded (db : DB) (st : StoreState) (ym : String)
    (hpos : ∀ t ∈ db.transactions, 0 ≤ t.amount)
    (hids : (st.categories.map (fun c => c.id)).Nodup) :
    (∀ c ∈ (calculateMonthSummary [] db st ym).1.categories,
        ∃ p, c.percentage = some p ∧ 0 ≤ p ∧ p ≤ 100)
  ∧ 2 * (((calculateMonthSummary [] db st ym).1.categories.map
        (fun c => c.percentage.getD 0)).sum)
      ≤ 200 + ((calculateMonthSummary [] db st ym).1.categories.length : Int) := by
  have hrowpos : ∀ t ∈ monthExpenseRows db ym, 0 ≤ t.amount := by
    intro t ht
    have ht' : t ∈ db.transactions.filter
        (fun t => monthOf t.date == ym && isExpenseType t) := ht
    exact hpos t (List.mem_filter.mp ht').1
  have hTEnn : 0 ≤ sqlSumExpense db ym := by
    apply List.sum_nonneg
    intro x hx
    obtain ⟨t, ht, rfl⟩ := List.mem_map.mp hx
    exact hrowpos t ht
  have hLnn : ∀ cid : Int,
      0 ≤ (((sqlBreakdown db ym).find? (fun b => b.1 == cid)).map (fun b => b.2)).getD 0 := by
    intro cid
    rw [breakdown_find_eq]
    apply List.sum_nonneg
    intro x hx
    obtain ⟨t, ht, rfl⟩ := List.mem_map.mp hx
    exact hrowpos t (List.mem_filter.mp ht).1
  have hLle : ∀ cid : Int,
      (((sqlBreakdown db ym).find? (fun b => b.1 == cid)).map (fun b => b.2)).getD 0
        ≤ sqlSumExpense db ym := by
    intro cid
    rw [breakdown_find_eq]
    exact sum_filter_le_sum _ _ (monthExpenseRows db ym) hrowpos
  have hPbound : ∀ cid : Int,
      0 ≤ (if sqlSumExpense db ym > 0 then
          roundPercent ((((sqlBreakdown db ym).find? (fun b => b.1 == cid)).map
            (fun b => b.2)).getD 0) (sqlSumExpense db ym)
        else 0)
    ∧ (if sqlSumExpense db ym > 0 then
          roundPercent ((((sqlBreakdown db ym).find? (fun b => b.1 == cid)).map
            (fun b => b.2)).getD 0) (sqlSumExpense db ym)
        else 0) ≤ 100 := by
    intro cid
    by_cases h : sqlSumExpense db ym > 0
    · rw [if_pos h]
      have hl := hLnn cid
      have hu := hLle cid
      constructor
      · exact Int.ediv_nonneg (by omega) (by omega)
      · have h1 : 200 * ((((sqlBreakdown db ym).find? (fun b => b.1 == cid)).map
            (fun b => b.2)).getD 0) + sqlSumExpense db ym
            ≤ sqlSumExpense db ym + 2 * sqlSumExpense db ym * 100 := by omega
        have h2 := Int.ediv_le_ediv (by omega : (0:ℤ) < 2 * sqlSumExpense db ym) h1
        have h3 : (sqlSumExpense db ym + 2 * sqlSumExpense db ym * 100)
            / (2 * sqlSumExpense db ym)
            = sqlSumExpense db ym / (2 * sqlSumExpense db ym) + 100 :=
          Int.add_mul_ediv_left (sqlSumExpense db ym) 100 (by omega)
        have h4 : sqlSumExpense db ym / (2 * sqlSumExpense db ym) = 0 :=
          Int.ediv_eq_zero_of_lt hTEnn (by omega)
        show (200 * _ + sqlSumExpense db ym) / (2 * sqlSumExpense db ym) ≤ 100
        omega
    · rw [if_neg h]
      exact ⟨le_refl 0, by norm_num⟩
  constructor
  · intro c hc
    have hc' : c ∈ st.categories.map (categoryWithStats db ym) := hc
    obtain ⟨cat, _, rfl⟩ := List.mem_map.mp hc'
    exact ⟨_, rfl, (hPbound cat.id).1, (hPbound cat.id).2⟩
  · have hlist : ((calculateMonthSummary [] db st ym).1.categories.map
        (fun c => c.percentage.getD 0))
        = st.categories.map (fun cat =>
            (if sqlSumExpense db ym > 0 then
              roundPercent ((((sqlBreakdown db ym).find? (fun b => b.1 == cat.id)).map
                (fun b => b.2)).getD 0) (sqlSumExpense db ym)
             else 0)) := by
      show ((st.categories.map (categoryWithStats db ym)).map
        (fun c => c.percentage.getD 0)) = _
      rw [List.map_map]
      rfl
    have hlen : (calculateMonthSummary [] db st ym).1.categories.length
        = st.categories.length := by
      show (st.categories.map (categoryWithStats db ym)).length = _
      rw [List.length_map]
    rw [hlist, hlen]
    by_cases hTE : sqlSumExpense db ym > 0
    · have hstep : ∀ cat ∈ st.categories,
          (fun cat =>
            (if sqlSumExpense db ym > 0 then
              roundPercent ((((sqlBreakdown db ym).find? (fun b => b.1 == cat.id)).map
                (fun b => b.2)).getD 0) (sqlSumExpense db ym)
             else 0) * (2 * sqlSumExpense db ym)) cat
            ≤ (fun cat =>
                200 * ((((sqlBreakdown db ym).find? (fun b => b.1 == cat.id)).map
                  (fun b => b.2)).getD 0) + sqlSumExpense db ym) cat := by
        intro cat _
        simp only
        rw [if_pos hTE]
        exact Int.ediv_mul_le _ (by omega)
      have hsums := List.sum_le_sum hstep
      rw [List.sum_map_mul_right] at hsums
      have hlin := sum_map_linear st.categories
        (fun cat => (((sqlBreakdown db ym).find? (fun b => b.1 == cat.id)).map
          (fun b => b.2)).getD 0) 200 (sqlSumExpense db ym)
      have hgr : (st.categories.map (fun cat =>
          (((sqlBreakdown db ym).find? (fun b => b.1 == cat.id)).map
            (fun b => b.2)).getD 0)).sum ≤ sqlSumExpense db ym := by
        have h1 : st.categories.map (fun cat =>
            (((sqlBreakdown db ym).find? (fun b => b.1 == cat.id)).map
              (fun b => b.2)).getD 0)
            = (st.categories.map (fun c => c.id)).map (fun cid =>
                (((monthExpenseRows db ym).filter (fun t => t.category_id == cid)).map
                  (fun t => t.amount)).sum) := by
          rw [List.map_map]
          apply List.map_congr_left
          intro cat _
          exact breakdown_find_eq db ym cat.id
        rw [h1]
        exact sum_groups_le_sum (st.categories.map (fun c => c.id))
          (monthExpenseRows db ym) hids hrowpos
      rw [hlin] at hsums
      have h200 : 200 * ((st.categories.map (fun cat =>
          (((sqlBreakdown db ym).find? (fun b => b.1 == cat.id)).map
            (fun b => b.2)).getD 0)).sum) ≤ 200 * sqlSumExpense db ym := by omega
      have hkey : (2 * ((st.categories.map (fun cat =>
          (if sqlSumExpense db ym > 0 then
            roundPercent ((((sqlBreakdown db ym).find? (fun b => b.1 == cat.id)).map
              (fun b => b.2)).getD 0) (sqlSumExpense db ym)
           else 0))).sum)) * sqlSumExpense db ym
          ≤ (200 + (st.categories.length : Int)) * sqlSumExpense db ym := by
        nlinarith [hsums, h200]
      exact le_of_mul_le_mul_right hkey hTE
    · have hzero : st.categories.map (fun cat =>
          (if sqlSumExpense db ym > 0 then
            roundPercent ((((sqlBreakdown db ym).find? (fun b => b.1 == cat.id)).map
              (fun b => b.2)).getD 0) (sqlSumExpense db ym)
           else 0))
          = st.categories.map (fun _ => (0 : Int)) :=
        List.map_congr_left (fun cat _ => if_neg hTE)
      rw [hzero, sum_map_zero]
      have : (0 : Int) ≤ (st.categories.length : Int) := by positivity
      omega

/-- C7, witness: the theorem instantiated on the concrete database `exDB`
and the fetched category cache, hypotheses discharged. -/
theorem percentages_bounded_witness :
    ((∀ t ∈ exDB.transactions, 0 ≤ t.amount)
      ∧ (((fetchCategories [] exDB initialState).1.categories.map
          (fun c => c.id)).Nodup))
  ∧ (∀ c ∈ (calculateMonthSummary [] exDB
        ((fetchCategories [] exDB initialState).1) "2024-06").1.categories,
      ∃ p, c.percentage = some p ∧ 0 ≤ p ∧ p ≤ 100) :=
  ⟨⟨by decide, by decide⟩,
    (percentages_bounded exDB ((fetchCategories [] exDB initialState).1) "2024-06"
      (by decide) (by decide)).1⟩

end FinanceStore
